import Mathlib

/-!
# Verification of the meta-webhook-relay core

Shallow embedding of the request-resolution and forward/mirror pipeline of the
relay server (`src/server.js`, `src/lib/extractId.js`, `src/lib/forward.js`),
together with proofs of the specification's testable properties.

Conventions of the embedding:
* JSON values (results of `JSON.parse`) are the inductive `Json`; JSON numbers
  are modelled as integers (Meta page/IG identifiers are integral, and no claim
  depends on float formatting).
* JavaScript objects are insertion-ordered association lists; property lookup
  on a parsed object is last-occurrence-wins (`JSON.parse` keeps the last
  duplicate key, so a parsed object's keys are in fact unique).
* JavaScript truthiness is the boolean `jsTruthy`; `String(x)` is `jsToString`.
* A thrown JavaScript exception (the `TypeError` from reading a property of
  `null`) is an `Except.error` carrying the message; it propagates through
  `resolveDownstream` into the route handler's catch block.
* Raw bodies are byte lists (`List Nat`).
-/

namespace MetaWebhookRelay

/-- A parsed JSON value (the possible results of `JSON.parse`). -/
inductive Json where
  | null : Json
  | bool (b : Bool) : Json
  | num (n : Int) : Json
  | str (s : String) : Json
  | arr (elems : List Json) : Json
  | obj (fields : List (String × Json)) : Json

/-- JavaScript truthiness of a JSON value: `null`, `false`, `0` and `""` are
falsy; every object and array (including `[]` and `\x7b\x7d`) is truthy. -/
def jsTruthy : Json → Bool
  | .null => false
  | .bool b => b
  | .num n => n ≠ 0
  | .str s => s ≠ ""
  | .arr _ => true
  | .obj _ => true

mutual
/-- JavaScript `String(x)` on a JSON value. -/
def jsToString : Json → String
  | .null => "null"
  | .bool true => "true"
  | .bool false => "false"
  | .num n => toString n
  | .str s => s
  | .arr elems => jsArrToString elems
  | .obj _ => "[object Object]"

/-- JavaScript array stringification: elements joined with `","`, a `null`
element contributing the empty string. -/
def jsArrToString : List Json → String
  | [] => ""
  | [.null] => ""
  | [x] => jsToString x
  | .null :: xs => "," ++ jsArrToString xs
  | x :: xs => jsToString x ++ "," ++ jsArrToString xs
end

/-- Property lookup on the field list of a parsed JSON object.  `JSON.parse`
keeps the LAST occurrence of a duplicated key, hence last-wins. -/
def objLookup {α : Type} : List (String × α) → String → Option α
  | [], _ => none
  | (k, v) :: rest, name =>
    match objLookup rest name with
    | some w => some w
    | none => if k = name then some v else none

/-- OPTIONAL-CHAINED property access `j?.[name]` on a JSON value (also the
plain access `j[name]` for a base already known to be non-null): an object
base reads its field; `null` and primitive bases yield `undefined` without
throwing (primitives box; the names read through this function, `"entry"` and
`"id"`, are not String/Number/Boolean/Array members). -/
def jsGetField (j : Json) (name : String) : Option Json :=
  match j with
  | .obj fields => objLookup fields name
  | _ => none

/-- The message of the `TypeError` thrown by reading a property of `null`. -/
def typeErrorNullRead (name : String) : String :=
  "TypeError: Cannot read properties of null (reading " ++ name ++ ")"

/-- PLAIN (non-optional) property access `base[name]`: a `null` base THROWS a
`TypeError` (modelled as `Except.error`); any other base reads as
`jsGetField`.  Used for `firstEntry.id`, which the source does not guard. -/
def jsGetFieldStrict (base : Json) (name : String) : Except String (Option Json) :=
  match base with
  | .null => .error (typeErrorNullRead name)
  | j => .ok (jsGetField j name)

/-- Embedding of `extractId` (src/lib/extractId.js lines 6-15):

```js
if (body?.entry && Array.isArray(body.entry) && body.entry.length > 0) {
  const firstEntry = body.entry[0];
  if (firstEntry.id) {
    return String(firstEntry.id);
  }
}
return null;
```

The truthiness test on `body?.entry` is subsumed by the array-shape match: a
missing or non-array `entry` fails `Array.isArray`, and an empty array fails
the length test.  `firstEntry.id` is an UNGUARDED plain access: when the first
entry is `null` it throws a `TypeError`, which escapes `extractId` (and the
resolver) into the route handler's catch block. -/
def extractId (body : Json) : Except String (Option String) :=
  match jsGetField body "entry" with
  | some (.arr (firstEntry :: _)) =>
    match jsGetFieldStrict firstEntry "id" with
    | .error e => .error e
    | .ok (some idv) => if jsTruthy idv then .ok (some (jsToString idv)) else .ok none
    | .ok none => .ok none
  | _ => .ok none

/-- A value of one query parameter as produced by Express's query parser: a
single string (`?id=a`) or a list of strings (`?id=a&id=b`). -/
inductive QueryVal where
  | str (s : String) : QueryVal
  | arr (vs : List String) : QueryVal
deriving Repr, DecidableEq

/-- The query-parameter object `req.query`: field name to value, insertion
ordered (Express merges repeated names into one `arr` entry, so keys are
unique). -/
abbrev Query := List (String × QueryVal)

/-- Truthiness of `req.query?.f`: an absent field is `undefined` (falsy), the
empty string is falsy, every array (even empty) is truthy. -/
def qvTruthy : Option QueryVal → Bool
  | none => false
  | some (.str s) => s ≠ ""
  | some (.arr _) => true

/-- Embedding of `req.query?.id || req.query?.page_id || req.query?.ig_id`
(src/server.js line 102): JavaScript `||` returns the first truthy operand, or
the last operand when all are falsy. -/
def queryIdOf (q : Query) : Option QueryVal :=
  let a := objLookup q "id"
  if qvTruthy a then a
  else
    let b := objLookup q "page_id"
    if qvTruthy b then b
    else objLookup q "ig_id"

/-- The query-derived candidates (src/server.js lines 102-107):

```js
if (Array.isArray(queryId)) { candidates.push(...queryId); }
else if (queryId) { candidates.push(queryId); }
```
-/
def queryCandidates (q : Query) : List String :=
  match queryIdOf q with
  | some (.arr vs) => vs
  | some (.str s) => if s = "" then [] else [s]
  | none => []

/-- The body-derived candidates (src/server.js lines 94-99): `extractId` is
consulted only when `req.parsedBody` is truthy and of `typeof 'object'`
(a JSON object or array; `null` is falsy), and its result is pushed only when
truthy (a non-empty string).  A `TypeError` thrown inside `extractId`
propagates. -/
def bodyCandidates (parsedBody : Option Json) : Except String (List String) :=
  match parsedBody with
  | some b =>
    match b with
    | .obj _ | .arr _ =>
      match extractId b with
      | .error e => .error e
      | .ok (some s) => .ok (if s = "" then [] else [s])
      | .ok none => .ok []
    | _ => .ok []
  | none => .ok []

/-- The full ordered candidate list built by `resolveDownstream`
(src/server.js lines 91-107): body-derived identifier first, then the
query-derived identifiers; building it throws iff the body part throws. -/
def candidatesOf (parsedBody : Option Json) (q : Query) : Except String (List String) :=
  match bodyCandidates parsedBody with
  | .error e => .error e
  | .ok bodyPart => .ok (bodyPart ++ queryCandidates q)

/-- The result of the JavaScript property read `platformMap[candidate]` on a
parsed sub-mapping: an own property (a JSON value), or a property inherited
from the prototype chain (always a truthy function or object). -/
inductive PropVal where
  | ownVal (v : Json) : PropVal
  | protoFn (name : String) : PropVal
  | protoObject : PropVal

/-- The `Object.prototype` members visible on every plain object: methods
(all truthy function values) and the `__proto__` accessor (a truthy object).
Any other name resolves to `undefined`. -/
def protoLookup (name : String) : Option PropVal :=
  if name = "constructor" then some (.protoFn "Object")
  else if name = "toString" ∨ name = "toLocaleString" ∨ name = "valueOf" ∨
      name = "hasOwnProperty" ∨ name = "isPrototypeOf" ∨
      name = "propertyIsEnumerable" ∨ name = "__defineGetter__" ∨
      name = "__defineSetter__" ∨ name = "__lookupGetter__" ∨
      name = "__lookupSetter__" then some (.protoFn name)
  else if name = "__proto__" then some .protoObject
  else none

/-- Full JavaScript property read `m[k]` on a plain parsed object: own
properties shadow the prototype; `none` is `undefined`. -/
def jsGet (m : List (String × Json)) (k : String) : Option PropVal :=
  match objLookup m k with
  | some v => some (.ownVal v)
  | none => protoLookup k

/-- Truthiness of a property-read result (`undefined` for `none`). -/
def propTruthy : Option PropVal → Bool
  | none => false
  | some (.ownVal v) => jsTruthy v
  | some (.protoFn _) => true
  | some .protoObject => true

/-- The numeric value of a non-empty digit string. -/
def charListToNat (cs : List Char) : Nat :=
  cs.foldl (fun n c => n * 10 + (c.toNat - 48)) 0

/-- Canonical array-index strings (`"0"`, `"1"`, `"42"`, ... — no leading
zeros).  JavaScript treats exactly these property names as array indices.
(The upper bound 2^32-2 is not modelled: an out-of-range index and a
huge-number name both read `undefined` on a parsed array, so the two are
indistinguishable here.) -/
def arrayIndexOf (s : String) : Option Nat :=
  match s.data with
  | [] => none
  | ['0'] => some 0
  | c :: cs =>
    if c.isDigit && c != '0' && cs.all (fun d => d.isDigit) then
      some (charListToNat (c :: cs))
    else none

/-- The `Array.prototype` members (Node 20): `constructor` is the `Array`
function; the listed methods are truthy functions; anything else falls through
to `Object.prototype`. -/
def arrayProtoLookup (name : String) : Option PropVal :=
  if name = "constructor" then some (.protoFn "Array")
  else if name ∈ ["at", "concat", "copyWithin", "fill", "find", "findIndex",
      "findLast", "findLastIndex", "lastIndexOf", "pop", "push", "reverse",
      "shift", "unshift", "slice", "sort", "splice", "includes", "indexOf",
      "join", "keys", "entries", "values", "forEach", "filter", "flat",
      "flatMap", "map", "every", "some", "reduce", "reduceRight",
      "toLocaleString", "toString", "toReversed", "toSorted", "toSpliced",
      "with"] then some (.protoFn name)
  else protoLookup name

/-- JavaScript property read `m[k]` when `m` is a parsed JSON ARRAY: a
canonical index string within bounds reads the element, `"length"` reads the
element count (truthy iff non-zero), and any other name falls to
`Array.prototype` and then `Object.prototype`. -/
def jsGetArr (elems : List Json) (k : String) : Option PropVal :=
  if k = "length" then some (.ownVal (.num elems.length))
  else
    match arrayIndexOf k with
    | some i =>
      match elems.get? i with
      | some v => some (.ownVal v)
      -- an out-of-bounds index is not an own property; index names are not
      -- prototype members either, so this evaluates to `undefined`
      | none => arrayProtoLookup k
    | none => arrayProtoLookup k

/-- A platform's sub-mapping value once it has passed the
`!platformMap || typeof platformMap !== 'object'` guard: a JSON object or a
JSON array (`typeof [] === 'object'`, and arrays are truthy). -/
inductive PlatMap where
  | objMap (fields : List (String × Json)) : PlatMap
  | arrMap (elems : List Json) : PlatMap

/-- `platformMap[candidate]` on a guarded sub-mapping. -/
def jsGetPlat : PlatMap → String → Option PropVal
  | .objMap fields, k => jsGet fields k
  | .arrMap elems, k => jsGetArr elems k

/-- The guard `!platformMap || typeof platformMap !== 'object'`
(src/server.js lines 86-89): `null` is falsy; strings, numbers and booleans
have `typeof ≠ 'object'`; JSON objects AND arrays pass. -/
def subMapOf : Json → Option PlatMap
  | .obj fields => some (.objMap fields)
  | .arr elems => some (.arrMap elems)
  | _ => none

/-- The candidate loop of `resolveDownstream` (src/server.js lines 109-113):

```js
for (const candidate of candidates) {
  if (candidate && platformMap[candidate]) {
    return { key: candidate, url: platformMap[candidate] };
  }
}
```

Returns the first candidate that is truthy (non-empty) and whose property read
is truthy, paired with the value read. -/
def findMatch (platformMap : PlatMap) : List String → Option (String × PropVal)
  | [] => none
  | candidate :: rest =>
    if candidate ≠ "" ∧ propTruthy (jsGetPlat platformMap candidate) then
      match jsGetPlat platformMap candidate with
      | some v => some (candidate, v)
      | none => none
    else findMatch platformMap rest

/-- The value of `resolveDownstream` when it returns: `key` is `mappingKey`
(`none` is JS `null`), `url` is the destination value (`none` means
resolution failed). -/
structure Resolution where
  key : Option String
  url : Option PropVal

/-- Embedding of `resolveDownstream` (src/server.js lines 83-121).  The
platform argument is one of the route literals `"messenger"`/`"instagram"`
(src/server.js lines 181-182), so the top-level read `mapping[platform]` is a
plain own-property lookup.  The guard runs BEFORE the body is inspected, so a
missing platform never throws; a `TypeError` raised while building the
candidate list (null first body entry) propagates out as `Except.error`. -/
def resolveDownstream (mapping : List (String × Json)) (platform : String)
    (parsedBody : Option Json) (q : Query) : Except String Resolution :=
  match objLookup mapping platform with
  | none => .ok ⟨none, none⟩
  | some pm =>
    match subMapOf pm with
    | none => .ok ⟨none, none⟩
    | some platformMap =>
      match candidatesOf parsedBody q with
      | .error e => .error e
      | .ok candidates =>
        match findMatch platformMap candidates with
        | some (c, v) => .ok ⟨some c, some v⟩
        | none =>
          -- `if (platformMap.default)`: "default" is not a prototype member,
          -- an index, or "length", so this is an own-property read.
          match jsGetPlat platformMap "default" with
          | some d =>
            if propTruthy (some d) then .ok ⟨some "default", some d⟩
            else .ok ⟨(match candidates with
                       | c :: _ => if c = "" then none else some c
                       | [] => none), none⟩
          | none =>
            -- `return { key: candidates[0] || null, url: null }`
            .ok ⟨(match candidates with
                  | c :: _ => if c = "" then none else some c
                  | [] => none), none⟩

/-! ## Header sanitization (src/lib/forward.js lines 18-64)

Header sets are modelled as ordered multimaps — lists of (name, value) pairs
in arrival order, repeated names allowed (Node 20 `Headers` iteration yields
multiple `Set-Cookie` response headers as separate entries).  The JS functions
build a PLAIN OBJECT by assignment, so a repeated name keeps its first
position but only its LAST value; `setHeader` models one such assignment. -/

/-- An ordered header multimap. -/
abbrev HeaderSet := List (String × String)

/-- ASCII lower-casing of one character (JavaScript `toLowerCase()` restricted
to ASCII, which is all that HTTP header names contain). -/
def asciiLowerChar (c : Char) : Char :=
  if 65 ≤ c.toNat ∧ c.toNat ≤ 90 then Char.ofNat (c.toNat + 32) else c

/-- ASCII upper-casing of one character (JavaScript `toUpperCase()` restricted
to ASCII, which is all that HTTP method names contain). -/
def asciiUpperChar (c : Char) : Char :=
  if 97 ≤ c.toNat ∧ c.toNat ≤ 122 then Char.ofNat (c.toNat - 32) else c

/-- `key.toLowerCase()` for header names. -/
def asciiLower (s : String) : String := ⟨s.data.map asciiLowerChar⟩

/-- `method.toUpperCase()` for HTTP methods. -/
def asciiUpper (s : String) : String := ⟨s.data.map asciiUpperChar⟩

/-- The denylist `HOP_BY_HOP_HEADERS` (src/lib/forward.js lines 21-32). -/
def HOP_BY_HOP_HEADERS : List String :=
  ["transfer-encoding", "connection", "keep-alive", "proxy-authenticate",
   "proxy-authorization", "te", "trailers", "upgrade", "content-length", "host"]

/-- JavaScript object assignment `obj[k] = v` on an insertion-ordered object:
an existing key (exact, case-sensitive match) keeps its position and gets the
new value; a new key is appended. -/
def setHeader (hs : HeaderSet) (k v : String) : HeaderSet :=
  if (hs.map Prod.fst).contains k then
    hs.map fun p => if p.1 = k then (k, v) else p
  else hs ++ [(k, v)]

/-- One iteration of the header-copy loops in `filterHeaders` and
`sanitizeIncomingHeaders`: `if (!HOP_BY_HOP_HEADERS.includes(lowerKey))
filtered[key] = value;` — an object assignment, so a repeated name overwrites
the value stored earlier. -/
def filterStep (filtered : HeaderSet) (kv : String × String) : HeaderSet :=
  if !HOP_BY_HOP_HEADERS.contains (asciiLower kv.1) then
    setHeader filtered kv.1 kv.2
  else filtered

/-- Embedding of `filterHeaders` (src/lib/forward.js lines 39-48): iterate the
response headers in order, copying each entry whose lowercased name is not
denylisted into a fresh object. -/
def filterHeaders (headers : HeaderSet) : HeaderSet :=
  headers.foldl filterStep []

/-- Embedding of `sanitizeIncomingHeaders` (src/lib/forward.js lines 55-64):
textually the same object-building loop, applied to the inbound header set. -/
def sanitizeIncomingHeaders (incomingHeaders : HeaderSet) : HeaderSet :=
  incomingHeaders.foldl filterStep []

/-- The names of a header set, in order. -/
def hdrKeys (hs : HeaderSet) : List String := hs.map Prod.fst

/-! ## The Forwarder (src/lib/forward.js lines 77-132) -/

/-- The outbound request assembled by `forwardRequest` before dispatch:
`method` and `headers` as placed into `fetchOptions`, `body` the attached raw
bytes (`none` when no body is attached). -/
structure OutboundRequest where
  method : String
  headers : HeaderSet
  body : Option (List Nat)

/-- The request-building prefix of `forwardRequest` (src/lib/forward.js lines
85-107): sanitize the inbound headers, inject `x-relay-key` when `relayId` is
truthy, uppercase the method, and attach the raw body bytes unchanged unless
the method is GET or HEAD.  (`rawBody || Buffer.alloc(0)` passes `rawBody`
itself whenever it is a Buffer — even an empty Buffer is truthy — so the body
attached is always the caller's `rawBody` value.) -/
def buildOutbound (method : String) (incomingHeaders : HeaderSet)
    (rawBody : List Nat) (relayId : Option String) : OutboundRequest :=
  let sanitizedHeaders := sanitizeIncomingHeaders incomingHeaders
  let sanitizedHeaders :=
    match relayId with
    | some k => if k ≠ "" then setHeader sanitizedHeaders "x-relay-key" k else sanitizedHeaders
    | none => sanitizedHeaders
  let upperMethod := asciiUpper method
  let shouldIncludeBody := !(upperMethod = "GET" ∨ upperMethod = "HEAD" : Bool)
  { method := upperMethod
    headers := sanitizedHeaders
    body := if shouldIncludeBody then some rawBody else none }

/-- The destination's HTTP response as observed by `fetch`: status, full
buffered body bytes, and response headers (ordered multimap, as Node 20
`Headers` iteration yields them). -/
structure DownstreamResponse where
  status : Nat
  headers : HeaderSet
  body : List Nat

/-- The value `forwardRequest` resolves with on a completed exchange
(src/lib/forward.js lines 119-123): the destination's status, the buffered
body bytes, and the response headers run through `filterHeaders`. -/
def forwardResult (resp : DownstreamResponse) : DownstreamResponse :=
  { status := resp.status, body := resp.body, headers := filterHeaders resp.headers }

/-- The error-message translation of `forwardRequest`'s catch block
(src/lib/forward.js lines 124-131): an `AbortError` (the timeout firing) is
rethrown as the timeout message; any other error is rethrown unchanged. -/
def forwardErrorMessage (timeoutMs : Nat) (errName errMsg : String) : String :=
  if errName = "AbortError" then
    "Request timeout after " ++ toString timeoutMs ++ "ms"
  else errMsg

/-! ### Timing model of the forward attempt

`forwardRequest` arms a timer for `timeoutMs` that aborts the fetch (lines
91-92).  The `fetch` promise resolves as soon as the response STATUS AND
HEADERS arrive; the very next statement clears the timer (line 112), BEFORE
`response.arrayBuffer()` buffers the body (line 114).  The discrete-time model
below records, for a destination that would deliver its headers at
`headersAt` and finish delivering its body at `bodyDoneAt`, when the caller of
`forwardRequest` is unblocked and with what outcome. -/

/-- Timing behaviour of one destination exchange: headers complete at
`headersAt`, the full body at `bodyDoneAt` (milliseconds from dispatch). -/
structure DestTiming where
  headersAt : Nat
  bodyDoneAt : Nat

/-- Outcome of the timed forward attempt: a timeout failure surfacing at time
`t`, or a delivered response surfacing at time `t`. -/
inductive ForwardTimedOutcome where
  | timeout (t : Nat) : ForwardTimedOutcome
  | delivered (t : Nat) : ForwardTimedOutcome
deriving Repr, DecidableEq

/-- Timed behaviour of `forwardRequest`: if the headers have not arrived when
the timer fires at `timeoutMs`, the fetch is aborted and the timeout failure
surfaces at the deadline; otherwise the timer is cleared on header arrival and
the attempt completes only when the body has been buffered, at `bodyDoneAt`,
with no bound applied. -/
def forwardRequestTiming (timeoutMs : Nat) (d : DestTiming) : ForwardTimedOutcome :=
  if d.headersAt < timeoutMs then .delivered d.bodyDoneAt
  else .timeout timeoutMs

/-- The time at which the caller of `forwardRequest` is unblocked. -/
def completionTime : ForwardTimedOutcome → Nat
  | .timeout t => t
  | .delivered t => t

/-! ## The Relay Handler (src/server.js lines 135-173) -/

/-- An inbound request as the webhook handler sees it after the raw-body
middleware: method, headers, raw body bytes (the bytes express.raw delivered),
the JSON-parsed body (`none` when the content type was not JSON or parsing
failed — `req.parsedBody = null`), and the query object. -/
structure IncomingRequest where
  method : String
  headers : HeaderSet
  rawBody : List Nat
  parsedBody : Option Json
  query : Query

/-- The caller-visible terminal outcome of one relay evaluation:
* `notFound msg` is `res.status(404).json(\x7b error: msg \x7d)`;
* `badGateway msg` is `res.status(502).json(\x7b error: msg \x7d)`;
* `mirrored status headers body` writes the destination's status, the
  filtered headers, and the body bytes verbatim. -/
inductive RelayOutcome where
  | notFound (msg : String) : RelayOutcome
  | badGateway (msg : String) : RelayOutcome
  | mirrored (status : Nat) (headers : HeaderSet) (body : List Nat) : RelayOutcome

/-- The HTTP status the outcome writes to the caller. -/
def outcomeStatus : RelayOutcome → Nat
  | .notFound _ => 404
  | .badGateway _ => 502
  | .mirrored status _ _ => status

/-- The 404 diagnostic `` `No downstream URL mapped for key: $\x7bmappingKey || 'unknown'\x7d` ``
(src/server.js line 142). -/
def notFoundMessage (mappingKey : Option String) : String :=
  "No downstream URL mapped for key: " ++
    (match mappingKey with
     | some k => if k = "" then "unknown" else k
     | none => "unknown")

/-- The generic 502 body text (src/server.js line 170). -/
def badGatewayMessage : String := "Failed to forward webhook to downstream server"

/-- Embedding of the handler returned by `createWebhookHandler`
(src/server.js lines 135-173).

The single try/catch wraps everything: an exception thrown during RESOLUTION
(the null-entry `TypeError`) reaches the same catch as a forwarding failure
and produces the generic 502 — without any outbound dispatch.

`net` abstracts the outcome of the guarded forward attempt after a successful
resolution — building the target URL (`appendQueryParams`, which throws on a
destination value that is not a valid URL) and performing the outbound
exchange: `.error e` is any exception reaching the catch block from that part
(timeout, network failure, invalid URL), `.ok resp` a completed exchange with
the destination's response.

The result pairs the caller-visible outcome with the outbound request that
`forwardRequest` assembles (`none` when nothing is ever dispatched). -/
def handleWebhook (mapping : List (String × Json)) (platform : String)
    (req : IncomingRequest) (net : Except String DownstreamResponse) :
    RelayOutcome × Option OutboundRequest :=
  match resolveDownstream mapping platform req.parsedBody req.query with
  | .error _ => (.badGateway badGatewayMessage, none)
  | .ok r =>
    match r.url with
    | none => (.notFound (notFoundMessage r.key), none)
    | some u =>
      -- `if (!downstreamBaseUrl)`: the resolved value is checked for truthiness.
      if propTruthy (some u) then
        let ob := buildOutbound req.method req.headers req.rawBody r.key
        match net with
        | .error _ => (.badGateway badGatewayMessage, some ob)
        | .ok resp =>
          (.mirrored (forwardResult resp).status (forwardResult resp).headers
            (forwardResult resp).body, some ob)
      else (.notFound (notFoundMessage r.key), none)

/-! ## The raw-body middleware (src/server.js lines 57-81) -/

/-- What arrives on the wire as one request's body, as `express.raw` (with its
DEFAULT `inflate: true`) treats it: an identity-encoded body is buffered
as-is, while a body sent with `Content-Encoding: gzip` or `deflate` is
DECOMPRESSED by the raw-body library before it becomes `req.body` — the
`compressed` constructor records both the wire bytes and the bytes they
inflate to (the decompression algorithm itself is not modelled). -/
inductive WireBody where
  | identity (bytes : List Nat) : WireBody
  | compressed (encoding : String) (wire : List Nat) (inflated : List Nat) : WireBody

/-- The body bytes `express.raw` hands on (the content of the `req.body`
Buffer). -/
def deliveredBody : WireBody → List Nat
  | .identity bytes => bytes
  | .compressed _ _ inflated => inflated

/-- The body bytes as received on the wire from the caller. -/
def wireBytesOf : WireBody → List Nat
  | .identity bytes => bytes
  | .compressed _ wire _ => wire

/-- What `express.raw` leaves in `req.body`: a Buffer of the delivered bytes
when a body was read, a string, or anything else (e.g. the untouched
`\x7b\x7d` when no body was parsed). -/
inductive ExpressBody where
  | buf (bytes : List Nat) : ExpressBody
  | strBody (s : String) : ExpressBody
  | other : ExpressBody

/-- The `req.rawBody` normalization (src/server.js lines 59-65): a Buffer is
kept as is, a string is UTF-8 encoded, anything else becomes the empty
buffer. -/
def rawBodyOf : ExpressBody → List Nat
  | .buf bytes => bytes
  | .strBody s => (s.toUTF8.toList.map UInt8.toNat)
  | .other => []

/-- The `'10mb'` body limit of the raw middleware, in bytes (the `bytes`
library parses `'10mb'` as `10 * 1024 * 1024`); raw-body enforces it on the
stream it delivers (the inflated bytes for an encoded body). -/
def bodyLimitBytes : Nat := 10 * 1024 * 1024

/-- Result of running the webhook route for one inbound request, middleware
included: the raw-body middleware rejects an over-limit payload (413) before
the handler runs, so nothing is resolved or forwarded; otherwise the handler
produces an outcome and possibly an outbound request. -/
inductive PipelineResult where
  | payloadTooLarge : PipelineResult
  | handled (outcome : RelayOutcome) (outbound : Option OutboundRequest) : PipelineResult

/-- The webhook route end to end (src/server.js lines 57-81 and 135-182):
`express.raw` with `limit: '10mb'` errors out (HTTP 413) before the route
handler runs when the delivered body exceeds the limit; within the limit the
delivered bytes (`received` — the bytes express.raw produces, after any
Content-Encoding inflation) become `req.rawBody` and the handler is evaluated
on them. -/
def relayPipeline (mapping : List (String × Json)) (platform : String)
    (method : String) (headers : HeaderSet) (received : List Nat)
    (parsedBody : Option Json) (q : Query)
    (net : Except String DownstreamResponse) : PipelineResult :=
  if bodyLimitBytes < received.length then .payloadTooLarge
  else
    let req : IncomingRequest :=
      ⟨method, headers, rawBodyOf (.buf received), parsedBody, q⟩
    let hr := handleWebhook mapping platform req net
    .handled hr.1 hr.2

/-! ## Helper lemmas about object field access -/

/-- Reading a field of an object value is plain lookup. -/
theorem jsGetField_obj (fields : List (String × Json)) (name : String) :
    jsGetField (Json.obj fields) name = objLookup fields name := rfl

/-! ## Helper lemmas about the candidate loop -/

/-- The loop guard of `resolveDownstream`'s candidate loop, as a boolean:
candidate non-empty and its property read truthy. -/
def jsMatches (m : PlatMap) (c : String) : Bool :=
  decide (c ≠ "") && propTruthy (jsGetPlat m c)

theorem jsMatches_iff {m : PlatMap} {c : String} :
    jsMatches m c = true ↔ (c ≠ "" ∧ propTruthy (jsGetPlat m c) = true) := by
  simp [jsMatches]

theorem jsMatches_get {m : PlatMap} {c : String}
    (h : jsMatches m c = true) : ∃ v, jsGetPlat m c = some v := by
  rcases jsMatches_iff.mp h with ⟨-, htr⟩
  cases hv : jsGetPlat m c with
  | none => rw [hv] at htr; simp [propTruthy] at htr
  | some v => exact ⟨v, rfl⟩

theorem findMatch_nil (m : PlatMap) : findMatch m [] = none := rfl

theorem findMatch_cons_pos {m : PlatMap} {c : String} {v : PropVal}
    (rest : List String) (h : jsMatches m c = true) (hv : jsGetPlat m c = some v) :
    findMatch m (c :: rest) = some (c, v) := by
  rw [findMatch, if_pos (jsMatches_iff.mp h), hv]

theorem findMatch_cons_neg {m : PlatMap} {c : String}
    (rest : List String) (h : jsMatches m c = false) :
    findMatch m (c :: rest) = findMatch m rest := by
  rw [findMatch, if_neg]
  intro hc
  rw [jsMatches_iff.mpr hc] at h
  exact absurd h (by simp)

theorem findMatch_eq_none_iff {m : PlatMap} {cs : List String} :
    findMatch m cs = none ↔ ∀ c ∈ cs, jsMatches m c = false := by
  induction cs with
  | nil => simp [findMatch_nil]
  | cons c rest ih =>
    cases hm : jsMatches m c with
    | true =>
      obtain ⟨v, hv⟩ := jsMatches_get hm
      rw [findMatch_cons_pos rest hm hv]
      simp only [List.mem_cons]
      constructor
      · intro h; exact absurd h (by simp)
      · intro h
        have := h c (Or.inl rfl)
        rw [hm] at this
        exact absurd this (by simp)
    | false =>
      rw [findMatch_cons_neg rest hm, ih]
      simp only [List.mem_cons]
      constructor
      · intro h c2 hc2
        rcases hc2 with rfl | hc2
        · exact hm
        · exact h c2 hc2
      · intro h c2 hc2
        exact h c2 (Or.inr hc2)

theorem findMatch_eq_some {m : PlatMap} {cs : List String}
    {c : String} {v : PropVal} (h : findMatch m cs = some (c, v)) :
    jsMatches m c = true ∧ jsGetPlat m c = some v ∧
      ∃ pre post, cs = pre ++ c :: post ∧ ∀ c2 ∈ pre, jsMatches m c2 = false := by
  induction cs with
  | nil => simp [findMatch_nil] at h
  | cons a rest ih =>
    cases hm : jsMatches m a with
    | true =>
      obtain ⟨w, hw⟩ := jsMatches_get hm
      rw [findMatch_cons_pos rest hm hw] at h
      obtain ⟨rfl, rfl⟩ : a = c ∧ w = v := by
        have := Option.some.inj h
        exact ⟨congrArg Prod.fst this, congrArg Prod.snd this⟩
      exact ⟨hm, hw, [], rest, rfl, by simp⟩
    | false =>
      rw [findMatch_cons_neg rest hm] at h
      obtain ⟨h1, h2, pre, post, hsplit, hpre⟩ := ih h
      refine ⟨h1, h2, a :: pre, post, by rw [hsplit]; rfl, ?_⟩
      intro c2 hc2
      rcases List.mem_cons.mp hc2 with rfl | hc2
      · exact hm
      · exact hpre c2 hc2

theorem findMatch_append_first {m : PlatMap} {pre : List String}
    {c : String} {v : PropVal} (post : List String)
    (hpre : ∀ c2 ∈ pre, jsMatches m c2 = false)
    (hc : jsMatches m c = true) (hv : jsGetPlat m c = some v) :
    findMatch m (pre ++ c :: post) = some (c, v) := by
  induction pre with
  | nil => exact findMatch_cons_pos post hc hv
  | cons a rest ih =>
    rw [List.cons_append, findMatch_cons_neg _ (hpre a (List.mem_cons_self a rest))]
    exact ih fun c2 hc2 => hpre c2 (List.mem_cons_of_mem a hc2)

/-- Any destination value a completed resolution returns is truthy: the
candidate loop only takes truthy reads and the `default` branch is guarded by
truthiness. -/
theorem resolveDownstream_url_truthy {mapping : List (String × Json)}
    {platform : String} {parsedBody : Option Json} {q : Query}
    {r : Resolution} {u : PropVal}
    (hres : resolveDownstream mapping platform parsedBody q = .ok r)
    (hurl : r.url = some u) :
    propTruthy (some u) = true := by
  unfold resolveDownstream at hres
  split at hres
  · obtain rfl := Except.ok.inj hres
    simp at hurl
  · split at hres
    · obtain rfl := Except.ok.inj hres
      simp at hurl
    · split at hres
      · simp at hres
      · split at hres
        · rename_i c v hfm
          obtain rfl := Except.ok.inj hres
          obtain rfl := Option.some.inj hurl
          obtain ⟨h1, h2, -⟩ := findMatch_eq_some hfm
          rcases jsMatches_iff.mp h1 with ⟨-, htr⟩
          rw [h2] at htr
          exact htr
        · split at hres
          · split at hres
            · rename_i htr
              obtain rfl := Except.ok.inj hres
              obtain rfl := Option.some.inj hurl
              exact htr
            · obtain rfl := Except.ok.inj hres
              simp at hurl
          · obtain rfl := Except.ok.inj hres
            simp at hurl

/-! ## Helper lemmas about header-object construction -/

theorem contains_hdrKeys {hs : HeaderSet} {k : String} :
    ((hs.map Prod.fst).contains k = true) ↔ k ∈ hdrKeys hs := by
  unfold hdrKeys
  simp

theorem setHeader_of_not_mem {hs : HeaderSet} {k : String} (v : String)
    (h : k ∉ hdrKeys hs) : setHeader hs k v = hs ++ [(k, v)] := by
  unfold setHeader
  rw [if_neg fun hc => h (contains_hdrKeys.mp hc)]

theorem hdrKeys_setHeader (hs : HeaderSet) (k v : String) :
    hdrKeys (setHeader hs k v) =
      if k ∈ hdrKeys hs then hdrKeys hs else hdrKeys hs ++ [k] := by
  by_cases h : k ∈ hdrKeys hs
  · rw [if_pos h]
    unfold setHeader
    rw [if_pos (contains_hdrKeys.mpr h)]
    unfold hdrKeys
    rw [List.map_map]
    apply List.map_congr_left
    intro p _
    by_cases hp : p.1 = k
    · simp [hp]
    · simp [hp]
  · rw [if_neg h, setHeader_of_not_mem v h]
    unfold hdrKeys
    simp

theorem mem_setHeader {hs : HeaderSet} {k v : String} {kv : String × String}
    (h : kv ∈ setHeader hs k v) : kv = (k, v) ∨ kv ∈ hs := by
  unfold setHeader at h
  split at h
  · obtain ⟨p, hp, hpe⟩ := List.mem_map.mp h
    by_cases hpk : p.1 = k
    · left; rw [← hpe]; simp [hpk]
    · right
      rw [← hpe]
      simpa [hpk] using hp
  · rcases List.mem_append.mp h with h | h
    · right; exact h
    · left; simpa using h

theorem setHeader_mem_self (hs : HeaderSet) (k v : String) :
    (k, v) ∈ setHeader hs k v := by
  unfold setHeader
  split
  · rename_i hc
    obtain ⟨p, hp, hpe⟩ := List.mem_map.mp (contains_hdrKeys.mp hc)
    refine List.mem_map.mpr ⟨p, hp, ?_⟩
    simp [hpe]
  · exact List.mem_append.mpr (Or.inr (by simp))

theorem mem_setHeader_of_ne {hs : HeaderSet} {kv : String × String} {k v : String}
    (h : kv ∈ hs) (hne : kv.1 ≠ k) : kv ∈ setHeader hs k v := by
  unfold setHeader
  split
  · refine List.mem_map.mpr ⟨kv, h, ?_⟩
    simp [hne]
  · exact List.mem_append.mpr (Or.inl h)

theorem filterStep_pass {acc : HeaderSet} {kv : String × String}
    (h : HOP_BY_HOP_HEADERS.contains (asciiLower kv.1) = false) :
    filterStep acc kv = setHeader acc kv.1 kv.2 := by
  unfold filterStep
  rw [h]
  rfl

theorem filterStep_fail {acc : HeaderSet} {kv : String × String}
    (h : HOP_BY_HOP_HEADERS.contains (asciiLower kv.1) = true) :
    filterStep acc kv = acc := by
  unfold filterStep
  rw [h]
  rfl

/-- Every member of the built header object is either from the accumulator or
a passing entry of the processed list. -/
theorem mem_foldl_filterStep :
    ∀ (l acc : HeaderSet) (kv : String × String),
      kv ∈ l.foldl filterStep acc →
      kv ∈ acc ∨ (kv ∈ l ∧ HOP_BY_HOP_HEADERS.contains (asciiLower kv.1) = false) := by
  intro l
  induction l with
  | nil => intro acc kv h; exact Or.inl h
  | cons a rest ih =>
    intro acc kv h
    rw [List.foldl_cons] at h
    rcases ih _ kv h with h2 | ⟨h2, h3⟩
    · unfold filterStep at h2
      split at h2
      · rename_i hpass
        rcases mem_setHeader h2 with rfl | h4
        · right
          refine ⟨?_, ?_⟩
          · exact Prod.mk.eta ▸ List.mem_cons_self a rest
          · simpa using hpass
        · exact Or.inl h4
      · exact Or.inl h2
    · exact Or.inr ⟨List.mem_cons_of_mem a h2, h3⟩

/-- The built header object has pairwise-distinct names. -/
theorem nodup_hdrKeys_foldl :
    ∀ (l acc : HeaderSet), (hdrKeys acc).Nodup →
      (hdrKeys (l.foldl filterStep acc)).Nodup := by
  intro l
  induction l with
  | nil => intro acc h; exact h
  | cons a rest ih =>
    intro acc h
    rw [List.foldl_cons]
    apply ih
    unfold filterStep
    split
    · rw [hdrKeys_setHeader]
      split
      · exact h
      · rename_i hmem
        exact List.Nodup.append h (List.nodup_singleton a.1)
          (by simpa [List.disjoint_singleton] using hmem)
    · exact h

/-- The names of the built header object extend the accumulator's names by a
subsequence of the processed names (so relative order is preserved). -/
theorem hdrKeys_foldl_sublist :
    ∀ (l acc : HeaderSet), ∃ t, hdrKeys (l.foldl filterStep acc) = hdrKeys acc ++ t ∧
      t.Sublist (hdrKeys l) := by
  intro l
  induction l with
  | nil => intro acc; exact ⟨[], by simp, by simp⟩
  | cons a rest ih =>
    intro acc
    rw [List.foldl_cons]
    cases hp : HOP_BY_HOP_HEADERS.contains (asciiLower a.1) with
    | false =>
      rw [filterStep_pass hp]
      by_cases hmem : a.1 ∈ hdrKeys acc
      · obtain ⟨t, ht, hsub⟩ := ih (setHeader acc a.1 a.2)
        rw [hdrKeys_setHeader, if_pos hmem] at ht
        exact ⟨t, ht, hsub.trans (List.sublist_cons_self a.1 (hdrKeys rest))⟩
      · obtain ⟨t, ht, hsub⟩ := ih (setHeader acc a.1 a.2)
        rw [hdrKeys_setHeader, if_neg hmem] at ht
        refine ⟨a.1 :: t, ?_, ?_⟩
        · rw [ht, List.append_assoc]
          rfl
        · exact hsub.cons₂ a.1
    | true =>
      rw [filterStep_fail hp]
      obtain ⟨t, ht, hsub⟩ := ih acc
      exact ⟨t, ht, hsub.trans (List.sublist_cons_self a.1 (hdrKeys rest))⟩

/-- Processing entries that all pass, with names disjoint from the
accumulator's and pairwise distinct, just appends them. -/
theorem foldl_filterStep_of_clean :
    ∀ (l acc : HeaderSet),
      (∀ kv ∈ l, HOP_BY_HOP_HEADERS.contains (asciiLower kv.1) = false) →
      (hdrKeys acc ++ hdrKeys l).Nodup →
      l.foldl filterStep acc = acc ++ l := by
  intro l
  induction l with
  | nil => intro acc _ _; simp
  | cons a rest ih =>
    intro acc hpass hnd
    rw [List.foldl_cons, filterStep_pass (hpass a (List.mem_cons_self a rest))]
    have hnot : a.1 ∉ hdrKeys acc := by
      intro hmem
      rw [List.nodup_append] at hnd
      exact hnd.2.2 hmem (show a.1 ∈ hdrKeys (a :: rest) from List.mem_cons_self a.1 (hdrKeys rest))
    rw [setHeader_of_not_mem a.2 hnot]
    have hkeys : hdrKeys (acc ++ [(a.1, a.2)]) ++ hdrKeys rest =
        hdrKeys acc ++ hdrKeys (a :: rest) := by
      unfold hdrKeys
      simp
    rw [ih (acc ++ [(a.1, a.2)])
      (fun kv hkv => hpass kv (List.mem_cons_of_mem a hkv))
      (by rw [hkeys]; exact hnd)]
    simp

/-- A pair already in the accumulator survives processing entries none of
which carries its name. -/
theorem mem_foldl_filterStep_of_mem :
    ∀ (l acc : HeaderSet) (kv : String × String),
      kv ∈ acc → (∀ kv2 ∈ l, kv2.1 ≠ kv.1) →
      kv ∈ l.foldl filterStep acc := by
  intro l
  induction l with
  | nil => intro acc kv h _; exact h
  | cons a rest ih =>
    intro acc kv h hne
    rw [List.foldl_cons]
    apply ih
    · unfold filterStep
      split
      · exact mem_setHeader_of_ne h (hne a (List.mem_cons_self a rest)).symm
      · exact h
    · intro kv2 h2
      exact hne kv2 (List.mem_cons_of_mem a h2)

/-! ## Claim C1 — candidate list order -/

/-- The values one query field contributes when it is selected: all values in
order for an array, the single value for a non-empty string. -/
def fieldValues : Option QueryVal → List String
  | some (.arr vs) => vs
  | some (.str s) => if s = "" then [] else [s]
  | none => []

/-- Spec-style definition for the AMENDED C1 wording: when candidate building
does not throw, the list is the body-derived part followed by the values of
the FIRST field among `"id"`, `"page_id"`, `"ig_id"` that holds a truthy
value — all of that one field's values, in order — and later fields are not
consulted; when no field holds a truthy value the query contributes nothing;
when identifier extraction throws (null first body entry), no candidate list
exists and the same error propagates. -/
def amendedCandidatesSpec (parsedBody : Option Json) (q : Query) :
    Except String (List String) :=
  match bodyCandidates parsedBody with
  | .error e => .error e
  | .ok bodyPart =>
    .ok (bodyPart ++
      (if qvTruthy (objLookup q "id") then fieldValues (objLookup q "id")
       else if qvTruthy (objLookup q "page_id") then fieldValues (objLookup q "page_id")
       else if qvTruthy (objLookup q "ig_id") then fieldValues (objLookup q "ig_id")
       else []))

/-- The query part of the candidate list follows first-truthy-field
precedence. -/
theorem queryCandidates_eq_spec (q : Query) :
    queryCandidates q =
      (if qvTruthy (objLookup q "id") then fieldValues (objLookup q "id")
       else if qvTruthy (objLookup q "page_id") then fieldValues (objLookup q "page_id")
       else if qvTruthy (objLookup q "ig_id") then fieldValues (objLookup q "ig_id")
       else []) := by
  unfold queryCandidates queryIdOf
  cases h1 : qvTruthy (objLookup q "id") with
  | true =>
    simp only [h1, if_true]
    cases objLookup q "id" with
    | none => rfl
    | some v => cases v <;> rfl
  | false =>
    simp only [h1, Bool.false_eq_true, if_false]
    cases h2 : qvTruthy (objLookup q "page_id") with
    | true =>
      simp only [h2, if_true]
      cases objLookup q "page_id" with
      | none => rfl
      | some v => cases v <;> rfl
    | false =>
      simp only [h2, Bool.false_eq_true, if_false]
      cases h3 : qvTruthy (objLookup q "ig_id") with
      | true =>
        simp only [h3, if_true]
        cases objLookup q "ig_id" with
        | none => rfl
        | some v => cases v <;> rfl
      | false =>
        simp only [h3, Bool.false_eq_true, if_false]
        cases hc : objLookup q "ig_id" with
        | none => rfl
        | some v =>
          cases v with
          | str s =>
            rw [hc] at h3
            simp only [qvTruthy] at h3
            have hs : s = "" := not_not.mp (of_decide_eq_false h3)
            simp [hs]
          | arr vs => rw [hc] at h3; simp [qvTruthy] at h3

/-- C1 counterexample: with query `?id=a&page_id=b` (and no body identifier),
the candidate list is `["a"]` — the `page_id` value `"b"` is NOT a candidate,
although the claim requires every value of each of the three fields to be
appended, so that `"b"` would remain a candidate even while `"a"` is
unmatched. -/
theorem C1_counterexample :
    candidatesOf none [("id", QueryVal.str "a"), ("page_id", QueryVal.str "b")] =
      .ok ["a"] ∧
    candidatesOf none [("id", QueryVal.str "a"), ("page_id", QueryVal.str "b")] ≠
      .ok ["a", "b"] := by
  constructor
  · rfl
  · intro h
    rw [show candidatesOf none [("id", QueryVal.str "a"), ("page_id", QueryVal.str "b")] =
        (.ok ["a"] : Except String (List String)) from rfl] at h
    exact absurd (Except.ok.inj h) (by decide)

/-- C1 (amended): for every inbound request whose identifier extraction does
not throw, the candidate identifier list is the body-derived identifier first
(when present and non-empty), followed by the values of only the FIRST query
field among `"id"`, `"page_id"`, `"ig_id"` holding a truthy value, all
appended in order; later fields are not consulted even when the earlier
field's values are unmatched.  When extraction throws (a null first body
entry), no candidate list is built and the same error propagates instead. -/
theorem C1_amended_candidate_order :
    ∀ (parsedBody : Option Json) (q : Query),
      candidatesOf parsedBody q = amendedCandidatesSpec parsedBody q := by
  intro parsedBody q
  unfold candidatesOf amendedCandidatesSpec
  cases bodyCandidates parsedBody with
  | error e => rfl
  | ok bodyPart => rw [queryCandidates_eq_spec]

/-! ## Claim C2 — identifier extraction -/

/-- C2 counterexample: the body `\x7b"entry":[\x7b"id":0\x7d]\x7d` has the
claimed shape (non-empty `entry`, first element carrying an `id` field), yet
`extractId` returns the no-identifier result instead of `String(0) = "0"`,
because `0` is falsy; and for `\x7b"entry":[null]\x7d` the absence is NOT a
benign no-identifier result — the unguarded `firstEntry.id` throws a
`TypeError` (surfaced by the relay as a 502). -/
theorem C2_counterexample :
    extractId (Json.obj [("entry", Json.arr [Json.obj [("id", Json.num 0)]])]) =
      .ok none ∧
    jsToString (Json.num 0) = "0" ∧
    extractId (Json.obj [("entry", Json.arr [Json.obj [("id", Json.num 0)]])]) ≠
      .ok (some (jsToString (Json.num 0))) ∧
    extractId (Json.obj [("entry", Json.arr [Json.null])]) =
      .error (typeErrorNullRead "id") := by
  refine ⟨rfl, rfl, ?_, rfl⟩
  intro h
  rw [show extractId (Json.obj [("entry", Json.arr [Json.obj [("id", Json.num 0)]])]) =
      (.ok none : Except String (Option String)) from rfl] at h
  exact absurd (Except.ok.inj h) (by decide)

/-- C2 (amended): for a parsed JSON body shaped
`\x7b"entry":[\x7b"id": X, ...\x7d, ...]\x7d` with a non-null first entry, the
Identifier Extractor returns `String(X)` exactly when `X` is truthy; when `X`
is falsy (`0`, `""`, `false`, `null`) — and for missing `entry`, empty
`entry`, non-array `entry`, a non-null first entry lacking `id`, or a
non-object body — it returns the benign "no identifier present" result.  A
NULL first entry, however, is an error: the unguarded `firstEntry.id` throws a
`TypeError` that the relay surfaces as a 502. -/
theorem C2_amended_extractId :
    (∀ fields firstEntry rest idv,
        objLookup fields "entry" = some (Json.arr (firstEntry :: rest)) →
        jsGetFieldStrict firstEntry "id" = .ok (some idv) →
        (jsTruthy idv = true →
          extractId (Json.obj fields) = .ok (some (jsToString idv))) ∧
        (jsTruthy idv = false → extractId (Json.obj fields) = .ok none)) ∧
    (∀ fields rest,
        objLookup fields "entry" = some (Json.arr (Json.null :: rest)) →
        extractId (Json.obj fields) = .error (typeErrorNullRead "id")) ∧
    (∀ fields firstEntry rest,
        objLookup fields "entry" = some (Json.arr (firstEntry :: rest)) →
        jsGetFieldStrict firstEntry "id" = .ok none →
        extractId (Json.obj fields) = .ok none) ∧
    (∀ fields, objLookup fields "entry" = none →
        extractId (Json.obj fields) = .ok none) ∧
    (∀ fields, objLookup fields "entry" = some (Json.arr []) →
        extractId (Json.obj fields) = .ok none) ∧
    (∀ fields v, objLookup fields "entry" = some v → (∀ xs, v ≠ Json.arr xs) →
        extractId (Json.obj fields) = .ok none) ∧
    (∀ body, (∀ fields, body ≠ Json.obj fields) → extractId body = .ok none) := by
  refine ⟨?_, ?_, ?_, ?_, ?_, ?_, ?_⟩
  · intro fields firstEntry rest idv h1 h2
    constructor
    · intro h3
      simp [extractId, jsGetField_obj, h1, h2, h3]
    · intro h3
      simp [extractId, jsGetField_obj, h1, h2, h3]
  · intro fields rest h1
    simp [extractId, jsGetField_obj, h1, jsGetFieldStrict]
  · intro fields firstEntry rest h1 h2
    simp [extractId, jsGetField_obj, h1, h2]
  · intro fields h1
    simp [extractId, jsGetField_obj, h1]
  · intro fields h1
    simp [extractId, jsGetField_obj, h1]
  · intro fields v h1 h2
    simp only [extractId, jsGetField_obj, h1]
    cases v with
    | arr xs => exact absurd rfl (h2 xs)
    | null => rfl
    | bool b => rfl
    | num n => rfl
    | str s => rfl
    | obj fs => rfl
  · intro body h
    cases body with
    | obj fields => exact absurd rfl (h fields)
    | null => rfl
    | bool b => rfl
    | num n => rfl
    | str s => rfl
    | arr xs => rfl

/-- C2 amended witness: a concrete body of the claimed shape with a truthy
identifier extracts `"123"`, via `C2_amended_extractId`. -/
theorem C2_amended_extractId_witness :
    extractId (Json.obj [("entry", Json.arr [Json.obj [("id", Json.str "123")]])]) =
      .ok (some "123") :=
  (C2_amended_extractId.1 [("entry", Json.arr [Json.obj [("id", Json.str "123")]])]
      (Json.obj [("id", Json.str "123")]) [] (Json.str "123") rfl rfl).1 (by decide)

/-! ## Claim C3 — resolver lookup order -/

/-- C3 counterexample: in the table
`\x7b"messenger":\x7b"a":"","b":"http://x"\x7d\x7d` with candidate list
`["a","b"]`, the key `"a"` EXISTS in the sub-mapping, yet the resolver skips
it (its value `""` is falsy) and resolves `"b"` — the claim, which matches on
key existence, requires `"a"`. -/
theorem C3_counterexample :
    objLookup [("a", Json.str ""), ("b", Json.str "http://x")] "a" = some (Json.str "") ∧
    candidatesOf none [("id", QueryVal.arr ["a", "b"])] = .ok ["a", "b"] ∧
    resolveDownstream [("messenger", Json.obj [("a", Json.str ""), ("b", Json.str "http://x")])]
        "messenger" none [("id", QueryVal.arr ["a", "b"])] =
      .ok ⟨some "b", some (.ownVal (.str "http://x"))⟩ ∧
    resolveDownstream [("messenger", Json.obj [("a", Json.str ""), ("b", Json.str "http://x")])]
        "messenger" none [("id", QueryVal.arr ["a", "b"])] ≠
      .ok ⟨some "a", some (.ownVal (.str ""))⟩ := by
  refine ⟨rfl, rfl, rfl, ?_⟩
  intro h
  rw [show resolveDownstream
      [("messenger", Json.obj [("a", Json.str ""), ("b", Json.str "http://x")])]
      "messenger" none [("id", QueryVal.arr ["a", "b"])] =
      (.ok ⟨some "b", some (.ownVal (.str "http://x"))⟩ : Except String Resolution) from rfl] at h
  have hkey : (some "b" : Option String) = some "a" :=
    congrArg Resolution.key (Except.ok.inj h)
  exact absurd (Option.some.inj hkey) (by decide)

/-- C3 (amended): for every mapping table, platform present in the table whose
value passes the typeof-object guard (a JSON object or array), and candidate
list whose construction does not throw: the resolver returns the first
candidate (in list order) whose JavaScript property read in the sub-mapping is
TRUTHY (a non-empty own value, or a truthy inherited property) together with
the value read, regardless of whether a `"default"` entry also exists; if no
candidate matches and the sub-mapping's `"default"` read is truthy, it returns
that value with `"default"` as resolved key; if no candidate matches and no
truthy `"default"` exists, resolution fails carrying the first candidate (or
nothing) as diagnostic key; if the platform is absent, resolution fails before
the body is inspected; and if candidate construction throws (null first body
entry), the same error propagates out of the resolver. -/
theorem C3_amended_resolver :
    (∀ mapping platform parsedBody q,
        objLookup mapping platform = none →
        resolveDownstream mapping platform parsedBody q = .ok ⟨none, none⟩) ∧
    (∀ mapping platform pm platformMap parsedBody q cs pre c post v,
        objLookup mapping platform = some pm →
        subMapOf pm = some platformMap →
        candidatesOf parsedBody q = .ok cs →
        cs = pre ++ c :: post →
        (∀ c2 ∈ pre, jsMatches platformMap c2 = false) →
        jsMatches platformMap c = true →
        jsGetPlat platformMap c = some v →
        resolveDownstream mapping platform parsedBody q = .ok ⟨some c, some v⟩) ∧
    (∀ mapping platform pm platformMap parsedBody q cs d,
        objLookup mapping platform = some pm →
        subMapOf pm = some platformMap →
        candidatesOf parsedBody q = .ok cs →
        (∀ c2 ∈ cs, jsMatches platformMap c2 = false) →
        jsGetPlat platformMap "default" = some d →
        propTruthy (some d) = true →
        resolveDownstream mapping platform parsedBody q = .ok ⟨some "default", some d⟩) ∧
    (∀ mapping platform pm platformMap parsedBody q cs,
        objLookup mapping platform = some pm →
        subMapOf pm = some platformMap →
        candidatesOf parsedBody q = .ok cs →
        (∀ c2 ∈ cs, jsMatches platformMap c2 = false) →
        propTruthy (jsGetPlat platformMap "default") = false →
        resolveDownstream mapping platform parsedBody q =
          .ok ⟨(match cs with
                | c2 :: _ => if c2 = "" then none else some c2
                | [] => none), none⟩) ∧
    (∀ mapping platform pm platformMap parsedBody q e,
        objLookup mapping platform = some pm →
        subMapOf pm = some platformMap →
        candidatesOf parsedBody q = .error e →
        resolveDownstream mapping platform parsedBody q = .error e) := by
  refine ⟨?_, ?_, ?_, ?_, ?_⟩
  · intro mapping platform parsedBody q h
    unfold resolveDownstream
    rw [h]
  · intro mapping platform pm platformMap parsedBody q cs pre c post v
      hplat hsub hcs hsplit hpre hc hv
    simp only [resolveDownstream, hplat, hsub, hcs]
    rw [hsplit, findMatch_append_first post hpre hc hv]
  · intro mapping platform pm platformMap parsedBody q cs d hplat hsub hcs hnone hd htr
    simp only [resolveDownstream, hplat, hsub, hcs]
    rw [findMatch_eq_none_iff.mpr hnone, hd]
    simp [htr]
  · intro mapping platform pm platformMap parsedBody q cs hplat hsub hcs hnone htr
    simp only [resolveDownstream, hplat, hsub, hcs]
    rw [findMatch_eq_none_iff.mpr hnone]
    cases hd : jsGetPlat platformMap "default" with
    | none => rfl
    | some d =>
      rw [hd] at htr
      simp [htr]
  · intro mapping platform pm platformMap parsedBody q e hplat hsub herr
    simp only [resolveDownstream, hplat, hsub, herr]

/-- C3 amended witness: with table
`\x7b"messenger":\x7b"123":"http://d/x","default":"http://d/f"\x7d\x7d` and
body identifier `"123"`, the resolver returns `"123"` with its URL even though
a fallback exists; with no matching candidate it returns the fallback; with
platform absent it fails; and a body whose first entry is `null` propagates
the `TypeError` — each via `C3_amended_resolver`. -/
theorem C3_amended_resolver_witness :
    resolveDownstream
        [("messenger", Json.obj [("123", Json.str "http://d/x"), ("default", Json.str "http://d/f")])]
        "messenger" (some (Json.obj [("entry", Json.arr [Json.obj [("id", Json.str "123")]])])) [] =
      .ok ⟨some "123", some (.ownVal (.str "http://d/x"))⟩ ∧
    resolveDownstream
        [("messenger", Json.obj [("123", Json.str "http://d/x"), ("default", Json.str "http://d/f")])]
        "messenger" none [("id", QueryVal.str "999")] =
      .ok ⟨some "default", some (.ownVal (.str "http://d/f"))⟩ ∧
    resolveDownstream
        [("messenger", Json.obj [("123", Json.str "http://d/x")])]
        "instagram" none [] = .ok ⟨none, none⟩ ∧
    resolveDownstream [("messenger", Json.obj [("123", Json.str "http://d/x")])]
        "messenger" (some (Json.obj [("entry", Json.arr [Json.null])])) [] =
      .error (typeErrorNullRead "id") := by
  refine ⟨?_, ?_, ?_, ?_⟩
  · exact C3_amended_resolver.2.1
      [("messenger", Json.obj [("123", Json.str "http://d/x"), ("default", Json.str "http://d/f")])]
      "messenger" (Json.obj [("123", Json.str "http://d/x"), ("default", Json.str "http://d/f")])
      (.objMap [("123", Json.str "http://d/x"), ("default", Json.str "http://d/f")])
      (some (Json.obj [("entry", Json.arr [Json.obj [("id", Json.str "123")]])])) []
      ["123"] [] "123" [] (.ownVal (.str "http://d/x")) rfl rfl rfl rfl
      (by intro c2 hc2; simp at hc2) (by decide) rfl
  · exact C3_amended_resolver.2.2.1
      [("messenger", Json.obj [("123", Json.str "http://d/x"), ("default", Json.str "http://d/f")])]
      "messenger" (Json.obj [("123", Json.str "http://d/x"), ("default", Json.str "http://d/f")])
      (.objMap [("123", Json.str "http://d/x"), ("default", Json.str "http://d/f")])
      none [("id", QueryVal.str "999")] ["999"] (.ownVal (.str "http://d/f")) rfl rfl rfl
      (by intro c2 hc2; fin_cases hc2; decide) rfl (by decide)
  · exact C3_amended_resolver.1
      [("messenger", Json.obj [("123", Json.str "http://d/x")])] "instagram" none [] rfl
  · exact C3_amended_resolver.2.2.2.2
      [("messenger", Json.obj [("123", Json.str "http://d/x")])] "messenger"
      (Json.obj [("123", Json.str "http://d/x")]) (.objMap [("123", Json.str "http://d/x")])
      (some (Json.obj [("entry", Json.arr [Json.null])])) [] (typeErrorNullRead "id")
      rfl rfl rfl

/-! ## Claim C9 — truthiness-based matching -/

/-- C9 (confirmed): the resolver treats a candidate as matching exactly when
the JavaScript property read `platformMap[candidate]` is truthy (for a
non-empty candidate): a candidate mapped to the empty string is skipped —
falling through to a later candidate, to the fallback, or to failure (still
carrying the first candidate as diagnostic key) — while a candidate naming a
truthy inherited `Object.prototype` property (`"constructor"`, `"toString"`)
is a successful match whose inherited value is returned as the destination
URL, even though the sub-mapping defines no such own key. -/
theorem C9_truthy_match :
    (∀ (m : PlatMap) (c : String), (findMatch m [c]).isSome = jsMatches m c) ∧
    resolveDownstream [("messenger", Json.obj [("a", Json.str ""), ("b", Json.str "http://x")])]
        "messenger" none [("id", QueryVal.arr ["a", "b"])] =
      .ok ⟨some "b", some (.ownVal (.str "http://x"))⟩ ∧
    resolveDownstream
        [("messenger", Json.obj [("a", Json.str ""), ("default", Json.str "http://d/f")])]
        "messenger" none [("id", QueryVal.str "a")] =
      .ok ⟨some "default", some (.ownVal (.str "http://d/f"))⟩ ∧
    resolveDownstream [("messenger", Json.obj [("a", Json.str "")])]
        "messenger" none [("id", QueryVal.str "a")] = .ok ⟨some "a", none⟩ ∧
    objLookup ([] : List (String × Json)) "constructor" = none ∧
    resolveDownstream [("messenger", Json.obj [])]
        "messenger" none [("id", QueryVal.str "constructor")] =
      .ok ⟨some "constructor", some (.protoFn "Object")⟩ ∧
    resolveDownstream [("messenger", Json.obj [])]
        "messenger" none [("id", QueryVal.str "toString")] =
      .ok ⟨some "toString", some (.protoFn "toString")⟩ := by
  refine ⟨?_, rfl, rfl, rfl, rfl, rfl, rfl⟩
  intro m c
  cases hm : jsMatches m c with
  | true =>
    obtain ⟨v, hv⟩ := jsMatches_get hm
    rw [findMatch_cons_pos [] hm hv]
    rfl
  | false =>
    rw [findMatch_cons_neg [] hm]
    rfl

/-! ## Claim C4 — header sanitization -/

/-- C4 counterexample: two `Set-Cookie` response headers (distinct entries
under Node 20 `Headers` iteration) pass the denylist check, but the object
assignment `filtered[key] = value` overwrites the first value with the
second — the repeated header's values are NOT all preserved, and the count of
the first pair drops from 1 to 0. -/
theorem C4_counterexample :
    filterHeaders [("Set-Cookie", "a=1"), ("Set-Cookie", "b=2")] = [("Set-Cookie", "b=2")] ∧
    HOP_BY_HOP_HEADERS.contains (asciiLower "Set-Cookie") = false ∧
    ("Set-Cookie", "a=1") ∈ [("Set-Cookie", "a=1"), ("Set-Cookie", "b=2")] ∧
    ("Set-Cookie", "a=1") ∉ filterHeaders [("Set-Cookie", "a=1"), ("Set-Cookie", "b=2")] ∧
    List.count ("Set-Cookie", "a=1")
        (filterHeaders [("Set-Cookie", "a=1"), ("Set-Cookie", "b=2")]) ≠
      List.count ("Set-Cookie", "a=1") [("Set-Cookie", "a=1"), ("Set-Cookie", "b=2")] := by
  refine ⟨rfl, rfl, by decide, by decide, by decide⟩

/-- C4 (amended): header sanitization is idempotent — sanitizing an
already-sanitized header set yields the same set (and the inbound and
response-side filters compute the same function); every header whose
lowercased name is in the fixed denylist is removed regardless of original
casing; every surviving entry comes from the input with a non-denylisted
name; the output carries each surviving NAME exactly once, with its original
casing, in input order; a non-denylisted name occurring exactly once keeps its
value; but because each entry is stored by object assignment, a REPEATED name
(with identical casing) keeps only its LAST value — multiplicity is NOT
preserved. -/
theorem C4_amended_header_sanitization :
    (∀ hs, sanitizeIncomingHeaders hs = filterHeaders hs) ∧
    (∀ hs, filterHeaders (filterHeaders hs) = filterHeaders hs) ∧
    (∀ hs k v, HOP_BY_HOP_HEADERS.contains (asciiLower k) = true →
        (k, v) ∉ filterHeaders hs) ∧
    (∀ hs kv, kv ∈ filterHeaders hs →
        kv ∈ hs ∧ HOP_BY_HOP_HEADERS.contains (asciiLower kv.1) = false) ∧
    (∀ hs, (hdrKeys (filterHeaders hs)).Nodup) ∧
    (∀ hs, (hdrKeys (filterHeaders hs)).Sublist (hdrKeys hs)) ∧
    (∀ hs1 hs2 k v, HOP_BY_HOP_HEADERS.contains (asciiLower k) = false →
        k ∉ hdrKeys hs1 → k ∉ hdrKeys hs2 →
        (k, v) ∈ filterHeaders (hs1 ++ (k, v) :: hs2)) ∧
    filterHeaders [("Set-Cookie", "a=1"), ("Set-Cookie", "b=2"), ("X-Custom", "foo")] =
      [("Set-Cookie", "b=2"), ("X-Custom", "foo")] := by
  refine ⟨fun _ => rfl, ?_, ?_, ?_, ?_, ?_, ?_, rfl⟩
  · intro hs
    have hpass : ∀ kv ∈ filterHeaders hs,
        HOP_BY_HOP_HEADERS.contains (asciiLower kv.1) = false := by
      intro kv h
      rcases mem_foldl_filterStep hs [] kv h with h2 | ⟨-, h2⟩
      · simp at h2
      · exact h2
    have hnd : (hdrKeys (filterHeaders hs)).Nodup :=
      nodup_hdrKeys_foldl hs [] (by simp [hdrKeys])
    have := foldl_filterStep_of_clean (filterHeaders hs) [] hpass
      (by simpa [hdrKeys] using hnd)
    simpa [filterHeaders] using this
  · intro hs k v h hmem
    rcases mem_foldl_filterStep hs [] (k, v) hmem with h2 | ⟨-, h2⟩
    · simp at h2
    · rw [h] at h2
      exact absurd h2 (by simp)
  · intro hs kv h
    rcases mem_foldl_filterStep hs [] kv h with h2 | h2
    · simp at h2
    · exact h2
  · intro hs
    exact nodup_hdrKeys_foldl hs [] (by simp [hdrKeys])
  · intro hs
    obtain ⟨t, ht, hsub⟩ := hdrKeys_foldl_sublist hs []
    unfold filterHeaders
    rw [ht]
    simpa [hdrKeys] using hsub
  · intro hs1 hs2 k v hpass h1 h2
    unfold filterHeaders
    rw [List.foldl_append, List.foldl_cons, filterStep_pass hpass]
    apply mem_foldl_filterStep_of_mem
    · exact setHeader_mem_self ..
    · intro kv2 hkv2 he
      exact h2 (List.mem_map.mpr ⟨kv2, hkv2, he⟩)

/-- C4 amended witness: on a concrete header set the denylisted `Connection`
entry is removed, `X-Custom` (occurring once) survives with its value, and the
filtered result is a fixed point, via `C4_amended_header_sanitization`. -/
theorem C4_amended_header_sanitization_witness :
    ("Connection", "keep-alive") ∉
      filterHeaders [("Connection", "keep-alive"), ("X-Custom", "foo")] ∧
    ("X-Custom", "foo") ∈
      filterHeaders [("Connection", "keep-alive"), ("X-Custom", "foo")] ∧
    filterHeaders (filterHeaders [("Connection", "keep-alive"), ("X-Custom", "foo")]) =
      filterHeaders [("Connection", "keep-alive"), ("X-Custom", "foo")] :=
  ⟨C4_amended_header_sanitization.2.2.1
      [("Connection", "keep-alive"), ("X-Custom", "foo")] "Connection" "keep-alive"
      (by decide),
   C4_amended_header_sanitization.2.2.2.2.2.2.1
      [("Connection", "keep-alive")] [] "X-Custom" "foo"
      (by decide) (by decide) (by decide),
   C4_amended_header_sanitization.2.1
      [("Connection", "keep-alive"), ("X-Custom", "foo")]⟩

/-! ## Claim C5 — timeout bounding -/

/-- C5 counterexample: with a 5 ms timeout and a destination that delivers its
response headers after 1 ms but finishes the body only after 1000 ms, the
exchange is NOT complete within the timeout (1000 > 5), yet the attempt is not
aborted and not reported as a timeout — it completes as a delivered response
at 1000 ms, so the caller waits far past the deadline (the timer was cleared
when the headers arrived, before the body was buffered). -/
theorem C5_counterexample :
    forwardRequestTiming 5 ⟨1, 1000⟩ = .delivered 1000 ∧
    forwardRequestTiming 5 ⟨1, 1000⟩ ≠ .timeout 5 ∧
    ¬ completionTime (forwardRequestTiming 5 ⟨1, 1000⟩) ≤ 5 ∧
    ¬ (1000 : Nat) ≤ 5 := by
  refine ⟨rfl, ?_, ?_, ?_⟩ <;> decide

/-- C5 (amended): the outbound exchange is bounded by the configured timeout
only up to the arrival of the destination's response status and headers: if
those do not arrive within the timeout, the attempt is aborted at the deadline
and reported as a timeout failure whose message is distinct from other network
failures (which are passed through unchanged); but once the headers arrive
before the deadline the timer is cleared, the subsequent body buffering is
unbounded, and the caller is unblocked only when the body completes — possibly
past the deadline. -/
theorem C5_amended_timeout :
    (∀ timeoutMs d, timeoutMs ≤ DestTiming.headersAt d →
        forwardRequestTiming timeoutMs d = .timeout timeoutMs ∧
        completionTime (forwardRequestTiming timeoutMs d) = timeoutMs) ∧
    (∀ timeoutMs d, DestTiming.headersAt d < timeoutMs →
        forwardRequestTiming timeoutMs d = .delivered (DestTiming.bodyDoneAt d) ∧
        completionTime (forwardRequestTiming timeoutMs d) = DestTiming.bodyDoneAt d) ∧
    (∀ timeoutMs msg, forwardErrorMessage timeoutMs "AbortError" msg =
        "Request timeout after " ++ toString timeoutMs ++ "ms") ∧
    (∀ timeoutMs name msg, name ≠ "AbortError" →
        forwardErrorMessage timeoutMs name msg = msg) := by
  refine ⟨?_, ?_, ?_, ?_⟩
  · intro timeoutMs d h
    have : ¬ DestTiming.headersAt d < timeoutMs := Nat.not_lt.mpr h
    constructor <;> simp [forwardRequestTiming, completionTime, this]
  · intro timeoutMs d h
    constructor <;> simp [forwardRequestTiming, completionTime, h]
  · intro timeoutMs msg
    rfl
  · intro timeoutMs name msg h
    unfold forwardErrorMessage
    rw [if_neg h]

/-- C5 amended witness: at a 5 ms timeout, headers arriving at 7 ms yield a
timeout failure at exactly 5 ms; headers at 1 ms with the body done at 9 ms
yield delivery at 9 ms; and a connection error message is passed through,
via `C5_amended_timeout`. -/
theorem C5_amended_timeout_witness :
    forwardRequestTiming 5 ⟨7, 9⟩ = .timeout 5 ∧
    forwardRequestTiming 5 ⟨1, 9⟩ = .delivered 9 ∧
    forwardErrorMessage 5 "AbortError" "aborted" = "Request timeout after 5ms" ∧
    forwardErrorMessage 5 "TypeError" "fetch failed" = "fetch failed" :=
  ⟨(C5_amended_timeout.1 5 ⟨7, 9⟩ (by decide)).1,
   (C5_amended_timeout.2.1 5 ⟨1, 9⟩ (by decide)).1,
   C5_amended_timeout.2.2.1 5 "aborted",
   C5_amended_timeout.2.2.2 5 "TypeError" "fetch failed" (by decide)⟩

/-! ## Claim C6 — response mirroring -/

/-- C6 (confirmed): for every successfully forwarded request (resolution
completed without throwing, produced a destination, and the exchange
completed with response `resp`), the Relay Handler writes the destination's
status code, the sanitized response headers (the result of the
object-building `filterHeaders` pass), and the body bytes verbatim back to
the caller — for EVERY status code the destination returns, including
4xx/5xx, which is mirrored as-is and never translated into a 502. -/
theorem C6_mirror_success :
    ∀ mapping platform req resp r u,
      resolveDownstream mapping platform (IncomingRequest.parsedBody req)
          (IncomingRequest.query req) = Except.ok r →
      Resolution.url r = some u →
      (handleWebhook mapping platform req (Except.ok resp)).1 =
        .mirrored (DownstreamResponse.status resp)
          (filterHeaders (DownstreamResponse.headers resp))
          (DownstreamResponse.body resp) ∧
      outcomeStatus (handleWebhook mapping platform req (Except.ok resp)).1 =
        DownstreamResponse.status resp := by
  intro mapping platform req resp r u hres hurl
  have htr := resolveDownstream_url_truthy hres hurl
  simp only [handleWebhook, hres]
  rw [hurl]
  simp [htr, forwardResult, outcomeStatus]

/-- C6 witness: a destination answering 500 with headers
`X-Custom: foo` and `Connection: close` is mirrored to the caller with status
500 (not 502) and only `X-Custom` among those headers, via
`C6_mirror_success`. -/
theorem C6_mirror_success_witness :
    (handleWebhook [("messenger", Json.obj [("123", Json.str "http://d/x")])] "messenger"
        ⟨"POST", [("Host", "relay")], [1, 2], none, [("id", QueryVal.str "123")]⟩
        (Except.ok ⟨500, [("X-Custom", "foo"), ("Connection", "close")], [104, 105]⟩)).1 =
      .mirrored 500 [("X-Custom", "foo")] [104, 105] := by
  have h := (C6_mirror_success [("messenger", Json.obj [("123", Json.str "http://d/x")])]
    "messenger" ⟨"POST", [("Host", "relay")], [1, 2], none, [("id", QueryVal.str "123")]⟩
    ⟨500, [("X-Custom", "foo"), ("Connection", "close")], [104, 105]⟩
    ⟨some "123", some (.ownVal (.str "http://d/x"))⟩
    (.ownVal (.str "http://d/x")) rfl rfl).1
  rw [h]
  rfl

/-! ## Claim C7 — body bytes between receipt and forwarding -/

/-- C7 counterexample: a request body sent with `Content-Encoding: gzip`
(wire bytes beginning with the gzip magic `31, 139`) is DECOMPRESSED by
express.raw (its default is `inflate: true`) before it becomes `req.rawBody`,
so the bytes attached to the outbound request are the inflated bytes — not
byte-identical to the bytes received from the caller, and a transformation
does occur between receipt and forwarding.  (The decompression pair is
recorded in the `WireBody.compressed` constructor; the algorithm itself is
not modelled.) -/
theorem C7_counterexample :
    deliveredBody (WireBody.compressed "gzip" [31, 139, 8, 0] [104, 105]) = [104, 105] ∧
    wireBytesOf (WireBody.compressed "gzip" [31, 139, 8, 0] [104, 105]) = [31, 139, 8, 0] ∧
    deliveredBody (WireBody.compressed "gzip" [31, 139, 8, 0] [104, 105]) ≠
      wireBytesOf (WireBody.compressed "gzip" [31, 139, 8, 0] [104, 105]) ∧
    OutboundRequest.body (buildOutbound "POST" []
        (rawBodyOf (ExpressBody.buf
          (deliveredBody (WireBody.compressed "gzip" [31, 139, 8, 0] [104, 105]))))
        (some "123")) = some [104, 105] := by
  refine ⟨rfl, rfl, by decide, rfl⟩

/-- C7 (amended): for every inbound request whose (upper-cased) method is
neither GET nor HEAD, the bytes the handler attaches to the outbound request
are exactly `req.rawBody` — the bytes express.raw delivered.  For an
identity-encoded (uncompressed) body those delivered bytes ARE the wire bytes
received from the caller, so forwarding is byte-identical; for a gzip- or
deflate-encoded body express.raw (default `inflate: true`) delivers the
DECOMPRESSED bytes, so the forwarded bytes differ from the wire bytes. -/
theorem C7_amended_body_bytes :
    (∀ mapping platform req net outcome ob,
        handleWebhook mapping platform req net = (outcome, some ob) →
        asciiUpper (IncomingRequest.method req) ≠ "GET" →
        asciiUpper (IncomingRequest.method req) ≠ "HEAD" →
        OutboundRequest.body ob = some (IncomingRequest.rawBody req)) ∧
    (∀ bytes, rawBodyOf (ExpressBody.buf bytes) = bytes) ∧
    (∀ bytes, deliveredBody (WireBody.identity bytes) = wireBytesOf (WireBody.identity bytes)) ∧
    (∀ enc wire inflated,
        deliveredBody (WireBody.compressed enc wire inflated) = inflated) := by
  refine ⟨?_, fun _ => rfl, fun _ => rfl, fun _ _ _ => rfl⟩
  intro mapping platform req net outcome ob h hget hhead
  cases hres : resolveDownstream mapping platform (IncomingRequest.parsedBody req)
      (IncomingRequest.query req) with
  | error e =>
    have hsnd : (handleWebhook mapping platform req net).2 = none := by
      simp only [handleWebhook, hres]
    rw [h] at hsnd
    exact Option.noConfusion hsnd
  | ok r =>
    cases hurl : r.url with
    | none =>
      have hsnd : (handleWebhook mapping platform req net).2 = none := by
        simp only [handleWebhook, hres]
        rw [hurl]
      rw [h] at hsnd
      exact Option.noConfusion hsnd
    | some u =>
      have htr := resolveDownstream_url_truthy hres hurl
      have hsnd : (handleWebhook mapping platform req net).2 =
          some (buildOutbound (IncomingRequest.method req) (IncomingRequest.headers req)
            (IncomingRequest.rawBody req) (Resolution.key r)) := by
        simp only [handleWebhook, hres]
        rw [hurl]
        cases net <;> simp [htr]
      rw [h] at hsnd
      obtain rfl := Option.some.inj hsnd
      simp [buildOutbound, hget, hhead]

/-- C7 amended witness: a POST with binary delivered bytes `[0, 255, 7]` (not
valid JSON) is dispatched with exactly those bytes attached, and for an
identity-encoded body the delivered bytes equal the wire bytes, via
`C7_amended_body_bytes`. -/
theorem C7_amended_body_bytes_witness :
    OutboundRequest.body (buildOutbound "POST" [] [0, 255, 7] (some "123")) =
      some [0, 255, 7] ∧
    rawBodyOf (ExpressBody.buf [9, 8]) = [9, 8] ∧
    deliveredBody (WireBody.identity [3, 4]) = wireBytesOf (WireBody.identity [3, 4]) :=
  ⟨C7_amended_body_bytes.1 [("messenger", Json.obj [("123", Json.str "http://d/x")])]
      "messenger" ⟨"POST", [], [0, 255, 7], none, [("id", QueryVal.str "123")]⟩
      (Except.error "boom") (.badGateway badGatewayMessage)
      (buildOutbound "POST" [] [0, 255, 7] (some "123")) rfl (by decide) (by decide),
   C7_amended_body_bytes.2.1 [9, 8],
   C7_amended_body_bytes.2.2.1 [3, 4]⟩

/-! ## Claim C8 — caller-visible response contract -/

/-- C8 counterexample: for the body `\x7b"entry":[null]\x7d` on a configured
platform, the caller receives the generic 502 even though the forward attempt
itself would have SUCCEEDED (the abstract exchange is `.ok` with status 200):
the `TypeError` thrown by `firstEntry.id` during resolution reaches the same
catch block, nothing is dispatched, and neither the 404-on-resolution-failure
nor the mirror-on-success disjunct of the claimed trichotomy describes the
outcome. -/
theorem C8_counterexample :
    (handleWebhook [("messenger", Json.obj [("123", Json.str "http://d/x")])] "messenger"
        ⟨"POST", [], [], some (Json.obj [("entry", Json.arr [Json.null])]), []⟩
        (Except.ok ⟨200, [("X-Custom", "foo")], [111, 107]⟩)).1 =
      .badGateway badGatewayMessage ∧
    (handleWebhook [("messenger", Json.obj [("123", Json.str "http://d/x")])] "messenger"
        ⟨"POST", [], [], some (Json.obj [("entry", Json.arr [Json.null])]), []⟩
        (Except.ok ⟨200, [("X-Custom", "foo")], [111, 107]⟩)).2 = none ∧
    outcomeStatus (handleWebhook [("messenger", Json.obj [("123", Json.str "http://d/x")])]
        "messenger" ⟨"POST", [], [], some (Json.obj [("entry", Json.arr [Json.null])]), []⟩
        (Except.ok ⟨200, [("X-Custom", "foo")], [111, 107]⟩)).1 = 502 ∧
    resolveDownstream [("messenger", Json.obj [("123", Json.str "http://d/x")])] "messenger"
        (some (Json.obj [("entry", Json.arr [Json.null])])) [] =
      .error (typeErrorNullRead "id") := by
  exact ⟨rfl, rfl, rfl, rfl⟩

/-- C8 (amended): for every inbound request reaching the handler, the
caller-visible outcome is exactly one of three forms — a 404 whose JSON error
body names the unresolved key, a 502 with the generic JSON error message, or
the destination's exact status with sanitized headers and body — where the
502 arises EITHER because the forward attempt failed (timeout or network
error) OR because an exception was thrown during resolution itself (the
`TypeError` from a null first body entry), in which case nothing is
dispatched; the mirror occurs exactly on a throw-free resolution with a
completed exchange. -/
theorem C8_amended_response_contract :
    ∀ mapping platform req net,
      ((∃ e, resolveDownstream mapping platform (IncomingRequest.parsedBody req)
            (IncomingRequest.query req) = .error e) ∧
        (handleWebhook mapping platform req net).1 = .badGateway badGatewayMessage ∧
        outcomeStatus (handleWebhook mapping platform req net).1 = 502 ∧
        (handleWebhook mapping platform req net).2 = none) ∨
      (∃ r, resolveDownstream mapping platform (IncomingRequest.parsedBody req)
            (IncomingRequest.query req) = .ok r ∧
        Resolution.url r = none ∧
        (handleWebhook mapping platform req net).1 =
          .notFound (notFoundMessage (Resolution.key r)) ∧
        outcomeStatus (handleWebhook mapping platform req net).1 = 404) ∨
      ((∃ r u, resolveDownstream mapping platform (IncomingRequest.parsedBody req)
            (IncomingRequest.query req) = .ok r ∧ Resolution.url r = some u) ∧
        (∃ e, net = Except.error e) ∧
        (handleWebhook mapping platform req net).1 = .badGateway badGatewayMessage ∧
        outcomeStatus (handleWebhook mapping platform req net).1 = 502) ∨
      (∃ resp, net = Except.ok resp ∧
        (handleWebhook mapping platform req net).1 =
          .mirrored (DownstreamResponse.status resp)
            (filterHeaders (DownstreamResponse.headers resp))
            (DownstreamResponse.body resp)) := by
  intro mapping platform req net
  cases hres : resolveDownstream mapping platform (IncomingRequest.parsedBody req)
      (IncomingRequest.query req) with
  | error e =>
    left
    refine ⟨⟨e, rfl⟩, ?_, ?_, ?_⟩ <;>
      simp [handleWebhook, hres, outcomeStatus]
  | ok r =>
    cases hurl : r.url with
    | none =>
      right; left
      refine ⟨r, rfl, hurl, ?_, ?_⟩
      · simp only [handleWebhook, hres]
        rw [hurl]
      · simp only [handleWebhook, hres]
        rw [hurl]
        rfl
    | some u =>
      have htr := resolveDownstream_url_truthy hres hurl
      cases net with
      | error e =>
        right; right; left
        refine ⟨⟨r, u, rfl, hurl⟩, ⟨e, rfl⟩, ?_, ?_⟩ <;>
          · simp only [handleWebhook, hres]
            rw [hurl]
            simp [htr, outcomeStatus]
      | ok resp =>
        right; right; right
        refine ⟨resp, rfl, ?_⟩
        simp only [handleWebhook, hres]
        rw [hurl]
        simp [htr, forwardResult]

/-! ## Claim C10 — body size limit -/

/-- C10 (confirmed): inbound webhook bodies are accepted only up to the
10 MB (`10 * 1024 * 1024` bytes) limit of the raw-body middleware; a request
whose body exceeds the limit is rejected before resolution and nothing is ever
forwarded for it; within the limit the handler runs on exactly the delivered
bytes, so the forwarding guarantees hold under this precondition. -/
theorem C10_body_limit :
    (∀ mapping platform method headers received parsedBody q net,
        bodyLimitBytes < List.length received →
        relayPipeline mapping platform method headers received parsedBody q net =
          .payloadTooLarge) ∧
    (∀ mapping platform method headers received parsedBody q net,
        List.length received ≤ bodyLimitBytes →
        relayPipeline mapping platform method headers received parsedBody q net =
          .handled
            (handleWebhook mapping platform ⟨method, headers, received, parsedBody, q⟩ net).1
            (handleWebhook mapping platform ⟨method, headers, received, parsedBody, q⟩ net).2) := by
  constructor
  · intro mapping platform method headers received parsedBody q net h
    unfold relayPipeline
    rw [if_pos h]
  · intro mapping platform method headers received parsedBody q net h
    unfold relayPipeline
    rw [if_neg (Nat.not_lt.mpr h)]
    rfl

/-- C10 witness: a body one byte over the limit is rejected before the handler
runs, while a two-byte body is handled, via `C10_body_limit`. -/
theorem C10_body_limit_witness :
    relayPipeline [] "messenger" "POST" [] (List.replicate (bodyLimitBytes + 1) 0)
        none [] (Except.error "e") = .payloadTooLarge ∧
    relayPipeline [] "messenger" "POST" [] [1, 2] none [] (Except.error "e") =
      .handled
        (handleWebhook [] "messenger" ⟨"POST", [], [1, 2], none, []⟩ (Except.error "e")).1
        (handleWebhook [] "messenger" ⟨"POST", [], [1, 2], none, []⟩ (Except.error "e")).2 :=
  ⟨C10_body_limit.1 [] "messenger" "POST" [] (List.replicate (bodyLimitBytes + 1) 0)
      none [] (Except.error "e")
      (by rw [List.length_replicate]; exact Nat.lt_succ_self bodyLimitBytes),
   C10_body_limit.2 [] "messenger" "POST" [] [1, 2] none [] (Except.error "e")
      (by norm_num [bodyLimitBytes])⟩

end MetaWebhookRelay
